import Mathlib

/-!
Shallow embedding of the threshold trading bot: the market gateway
(`upstox_client.py`) and the strategy execution engine (`strategy.py`).

Modelling conventions:
* Python floats are modelled as `ℚ` (prices, times, thresholds).
* Python ints are `Int` (quantities) or `Nat` (counters).
* Decoded JSON bodies are `JVal`; Python `None` is `JVal.null`.
* Exceptions become `Except Err`; `Err.valueError` models `ValueError`
  (the spec's ValidationError), `Err.runtimeError` models `RuntimeError`
  (the spec's GatewayError), `Err.typeError` models `TypeError`.
* External effects (HTTP exchanges, SDK responses, wall-clock readings,
  the SIGINT flag) are supplied by explicit environment records.
-/

namespace Bot

mutual

/-- JSON-like values as produced by `resp.json()`. Objects and arrays use
dedicated list types so that all recursion is structural. -/
inductive JVal where
  | null : JVal
  | num : ℚ → JVal
  | str : String → JVal
  | bool : Bool → JVal
  | obj : JObj → JVal
  | arr : JArr → JVal

/-- Association list of string keys to JSON values (a decoded dict). -/
inductive JObj where
  | nil : JObj
  | cons : String → JVal → JObj → JObj

/-- List of JSON values (a decoded array). -/
inductive JArr where
  | anil : JArr
  | acons : JVal → JArr → JArr

end

/-- Python truthiness of a decoded JSON value (`bool(v)`). -/
def truthy : JVal → Bool
  | .null => false
  | .num q => decide (q ≠ 0)
  | .str s => decide (s ≠ "")
  | .bool b => b
  | .obj o => match o with | .nil => false | .cons _ _ _ => true
  | .arr a => match a with | .anil => false | .acons _ _ => true

/-- Python `d.get(k)` on a decoded dict: `none` when the key is absent or
its value is JSON null (decoded Python `None`), since `dict.get` returns
`None` in both cases. -/
def JObj.get : JObj → String → Option JVal
  | .nil, _ => none
  | .cons k v rest, key =>
      if k = key then (match v with | .null => none | w => some w) else rest.get key

/-- Python `next(iter(d.values()), None)`: the first value of the dict. -/
def JObj.firstVal : JObj → Option JVal
  | .nil => none
  | .cons _ v _ => match v with | .null => none | w => some w

/-- Python `a or b` over possibly-absent decoded values: `a` when present
and truthy, otherwise `b`. -/
def pyOr (a b : Option JVal) : Option JVal :=
  match a with
  | some v => if truthy v then some v else b
  | none => b

/-- Truthiness of a possibly-absent value (`none` is falsy). -/
def truthyO : Option JVal → Bool
  | some v => truthy v
  | none => false

/-- Error kinds raised by the embedded code. -/
inductive Err where
  | valueError : String → Err
  | runtimeError : String → Err
  | typeError : String → Err
deriving DecidableEq

/-- The `Config` dataclass of `config.py`. -/
structure Config where
  api_key : Option String
  api_secret : Option String
  access_token : Option String
  redirect_uri : Option String
  base_url : String

/-- Python truthiness of `config.access_token` (`None` and the empty string
are both falsy). -/
def Config.hasToken (c : Config) : Bool :=
  match c.access_token with
  | some s => decide (s ≠ "")
  | none => false

/-- The `UpstoxClient` gateway. `hasSdkLib` models `HAS_UPSTOX_SDK`
(whether the optional legacy SDK import succeeded); `sdk` models whether
`self._sdk is not None`. -/
structure UpstoxClient where
  config : Config
  dry_run : Bool
  hasSdkLib : Bool
  sdk : Bool

/-- Construction per `UpstoxClient.__init__` (upstox_client.py lines 41-61):
`self._sdk` is set only when the SDK library imported, an access token is
present (Python truthiness), and the SDK constructor did not raise
(`sdkCtorOk` abstracts that external outcome). -/
def mkUpstoxClient (config : Config) (dry_run : Bool) (hasSdkLib sdkCtorOk : Bool) : UpstoxClient :=
  { config := config, dry_run := dry_run, hasSdkLib := hasSdkLib,
    sdk := hasSdkLib && config.hasToken && sdkCtorOk }

/-- One HTTP exchange as seen by `UpstoxClient._request`: the `resp.ok`
flag, the status code, and the decoded JSON body (`Except.error text` when
`resp.json()` raises, carrying `resp.text`). -/
structure HttpResp where
  ok : Bool
  status : Nat
  body : Except String JVal

mutual

/-- Serialization of a decoded value, as in `json.dumps` with default
separators (used only to reproduce error-message payloads; non-integer
rationals print in fractional form, a divergence irrelevant to the claims). -/
def jdumps : JVal → String
  | .null => "null"
  | .num q => if q.den = 1 then toString q.num else toString q
  | .str s => "\x22" ++ s ++ "\x22"
  | .bool b => if b then "true" else "false"
  | .obj o => "\x7b" ++ jdumpsObj o ++ "\x7d"
  | .arr a => "[" ++ jdumpsArr a ++ "]"

/-- Serialization of a dict body, comma-separated `"k": v` pairs. -/
def jdumpsObj : JObj → String
  | .nil => ""
  | .cons k v .nil => "\x22" ++ k ++ "\x22: " ++ jdumps v
  | .cons k v rest => "\x22" ++ k ++ "\x22: " ++ jdumps v ++ ", " ++ jdumpsObj rest

/-- Serialization of an array body. -/
def jdumpsArr : JArr → String
  | .anil => ""
  | .acons v .anil => jdumps v
  | .acons v rest => jdumps v ++ ", " ++ jdumpsArr rest

end

/-- The `UpstoxClient._request` helper (lines 64-73): decode the body
(falling back to a raw-text wrapper), raise `RuntimeError` on a non-ok
status, and wrap non-dict bodies under a "data" key. -/
def requestJson (r : HttpResp) : Except Err JObj :=
  let data : JVal :=
    match r.body with
    | .ok j => j
    | .error t => .obj (.cons "raw" (.str t) .nil)
  if r.ok then
    .ok (match data with
      | .obj o => o
      | d => .cons "data" d .nil)
  else
    .error (.runtimeError ("Upstox API error " ++ toString r.status ++ ": " ++ jdumps data))

/-- Parse of a plain decimal string (optional sign, digits, optional
fractional part): a simplified model of the strings Python `float()`
accepts (exponents, infinities and a signed zero integer part are not
modelled; no claim depends on them). -/
def parseDec (s : String) : Option ℚ :=
  match s.split (fun c => c = '.') with
  | [w] => (w.toInt?).map (fun n => (n : ℚ))
  | [w, f] =>
      match w.toInt?, f.toNat? with
      | some n, some fn =>
          let d : ℚ := (fn : ℚ) / ((10 : ℚ) ^ f.length)
          some (if n < 0 then (n : ℚ) - d else (n : ℚ) + d)
      | _, _ => none
  | _ => none

/-- Python `float(v)` on a decoded JSON value. -/
def pyFloat : JVal → Except Err ℚ
  | .num q => .ok q
  | .bool b => .ok (if b then 1 else 0)
  | .str s =>
      match parseDec s with
      | some q => .ok q
      | none => .error (.valueError ("could not convert string to float: " ++ s))
  | _ => .error (.typeError "float() argument must be a string or a real number")

/-- The `LtpQuote` dataclass (lines 33-37); the timestamp field holds
whatever decoded value the backend supplied, or `none`. -/
structure LtpQuote where
  instrument_key : String
  last_price : ℚ
  timestamp : Option JVal

/-- Message of the shape error raised at upstox_client.py line 106: the
serialized response body truncated to 500 characters. -/
def shapeMsg (data : JVal) : String :=
  "Unexpected LTP response shape: " ++ (jdumps data).take 500

/-- Extraction of a quote from a successful HTTP response body
(upstox_client.py lines 90-107): select the per-instrument node (or, via
Python `or`, the first child when the key is absent or its node falsy),
chain the recognized price names `ltp` / `last_price` /
`last_traded_price` / `close` and timestamp names `timestamp` /
`exchange_timestamp` with Python `or`, fall back to a numeric top-level
`ltp` (`isinstance(..., (int, float))`, which accepts bools), and raise
the shape error when no price value was selected. -/
def extractLtpFromBody (data : JObj) (instrument_key : String) : Except Err LtpQuote :=
  let fields : Option JVal × Option JVal :=
    match data.get "data" with
    | some (.obj d) =>
        match pyOr (d.get instrument_key) d.firstVal with
        | some (.obj n) =>
            (pyOr (pyOr (pyOr (n.get "ltp") (n.get "last_price")) (n.get "last_traded_price"))
               (n.get "close"),
             pyOr (n.get "timestamp") (n.get "exchange_timestamp"))
        | _ => (none, none)
    | _ => (none, none)
  let lastPrice : Option JVal :=
    match fields.1 with
    | none =>
        match data.get "ltp" with
        | some (.num q) => some (.num q)
        | some (.bool b) => some (.num (if b then 1 else 0))
        | _ => none
    | some v => some v
  match lastPrice with
  | none => .error (.runtimeError (shapeMsg (.obj data)))
  | some v =>
      match pyFloat v with
      | .ok q => .ok { instrument_key := instrument_key, last_price := q, timestamp := fields.2 }
      | .error e => .error e

/-- Legacy SDK fallback branch of `get_ltp` (lines 110-119): extract the
price from the environment-supplied live feed; the SDK calls themselves
are external library behavior abstracted by the environment. -/
def sdkLtp (feed : JObj) (instrument_key : String) : Except Err LtpQuote :=
  match pyOr (feed.get "ltp") (feed.get "last_price") with
  | none => .error (.runtimeError "Unexpected SDK LTP response")
  | some v =>
      match pyFloat v with
      | .ok q => .ok { instrument_key := instrument_key, last_price := q, timestamp := feed.get "timestamp" }
      | .error e => .error e

/-- Environment of one `get_ltp` call: the wall-clock reading inside the
call, the HTTP exchange a live request would produce, and the decoded SDK
live feed the legacy SDK would produce. -/
structure FetchEnv where
  t : ℚ
  resp : HttpResp
  sdkFeed : JObj

/-- Result of a `get_ltp` call together with which backend was touched. -/
structure FetchOut where
  result : Except Err LtpQuote
  usedSim : Bool
  usedHttp : Bool
  usedSdk : Bool

/-- The `UpstoxClient.get_ltp` method (lines 76-121). `simPrice` abstracts
the hash-and-sine simulator price of lines 80-84 (its exact value depends
on Python's randomized string hash and floating-point `math.sin`; every
claim about this method concerns backend selection or HTTP extraction,
never the simulated value itself). -/
def get_ltp (c : UpstoxClient) (simPrice : String → ℚ → ℚ) (env : FetchEnv)
    (instrument_key : String) : FetchOut :=
  if c.dry_run && !c.config.hasToken then
    { result := .ok { instrument_key := instrument_key,
                      last_price := simPrice instrument_key env.t, timestamp := none },
      usedSim := true, usedHttp := false, usedSdk := false }
  else if c.config.hasToken then
    { result :=
        match requestJson env.resp with
        | .error e => .error e
        | .ok data => extractLtpFromBody data instrument_key,
      usedSim := false, usedHttp := true, usedSdk := false }
  else if c.sdk && c.hasSdkLib then
    { result := sdkLtp env.sdkFeed instrument_key,
      usedSim := false, usedHttp := false, usedSdk := true }
  else
    { result := .error (.runtimeError "No Upstox credentials available for LTP. Provide UPSTOX_ACCESS_TOKEN."),
      usedSim := false, usedHttp := false, usedSdk := false }

/-- Environment of one `place_market_order` call: the wall-clock reading
for the dry-run acknowledgement, the HTTP exchange a live order would
produce, and the decoded response the legacy SDK would produce. -/
structure OrderEnv where
  t : ℚ
  resp : HttpResp
  sdkResp : JVal

/-- Result of a `place_market_order` call together with which backend was
touched. -/
structure OrderOut where
  result : Except Err JVal
  usedHttp : Bool
  usedSdk : Bool

/-- The dry-run acknowledgement dict (upstox_client.py lines 141-150), in
source field order. -/
def mkAck (action instrument_key : String) (quantity : Int) (product validity : String)
    (tag : Option String) (t : ℚ) : JObj :=
  .cons "status" (.str "dry_run")
  (.cons "action" (.str action)
  (.cons "instrument_key" (.str instrument_key)
  (.cons "quantity" (.num (quantity : ℚ))
  (.cons "product" (.str product)
  (.cons "validity" (.str validity)
  (.cons "tag" (match tag with | some s => .str s | none => .null)
  (.cons "timestamp" (.num t) .nil)))))))

/-- Python `str.upper()` (ASCII range, which covers the sides used here),
written over the character list so that it reduces structurally. -/
def pyUpper (s : String) : String :=
  String.mk (s.data.map Char.toUpper)

/-- The `UpstoxClient.place_market_order` method (lines 124-182):
uppercase the side, validate side and quantity, then dry-run
acknowledgement, live HTTP, legacy SDK, or the no-credentials error, in
source order. -/
def place_market_order (c : UpstoxClient) (env : OrderEnv) (instrument_key : String)
    (transaction_type : String) (quantity : Int) (product : String := "I")
    (validity : String := "DAY") (tag : Option String := none) : OrderOut :=
  let tt := pyUpper transaction_type
  if !(tt = "BUY" || tt = "SELL") then
    { result := .error (.valueError "transaction_type must be BUY or SELL"),
      usedHttp := false, usedSdk := false }
  else if quantity ≤ 0 then
    { result := .error (.valueError "quantity must be positive"),
      usedHttp := false, usedSdk := false }
  else if c.dry_run then
    { result := .ok (.obj (mkAck tt instrument_key quantity product validity tag env.t)),
      usedHttp := false, usedSdk := false }
  else if c.config.hasToken then
    { result := (requestJson env.resp).map (fun d => .obj d),
      usedHttp := true, usedSdk := false }
  else if c.sdk && c.hasSdkLib then
    { result := .ok (.obj (.cons "data" env.sdkResp .nil)),
      usedHttp := false, usedSdk := true }
  else
    { result := .error (.runtimeError "No Upstox credentials available for orders. Provide UPSTOX_ACCESS_TOKEN."),
      usedHttp := false, usedSdk := false }

deriving instance DecidableEq for Except

/-- The `StrategyState` dataclass (strategy.py lines 12-17). -/
structure StrategyState where
  instrument_key : String
  position_qty : Int
  total_trades : Nat
  last_trade_time : ℚ
deriving DecidableEq

/-- The keyword parameters of `run_threshold_strategy` (lines 20-30). -/
structure StratParams where
  buy_below : Option ℚ
  sell_above : Option ℚ
  quantity : Int
  poll_interval_sec : ℚ
  max_trades : Option Int
  cooldown_sec : ℚ

/-- One successful fill as recorded by the loop confirmation lines. -/
structure Trade where
  side : String
  qty : Int
  price : ℚ
  time : ℚ
deriving DecidableEq

/-- One invocation that reached `place_market_order` (side and quantity),
whether or not it succeeded. -/
structure OrderCall where
  side : String
  qty : Int
deriving DecidableEq

/-- Environment of one loop iteration: the SIGINT flag as observed by the
`while not stop` check, the fetch environment of the `get_ltp` call, the
`time.time()` reading of line 57, and the order environments a buy and a
sell attempt would see. -/
structure IterEnv where
  stop : Bool
  fetchEnv : FetchEnv
  now : ℚ
  buyEnv : OrderEnv
  sellEnv : OrderEnv

/-- Output of one loop-body execution. -/
structure StepOut where
  state : StrategyState
  calls : List OrderCall
  trades : List Trade

/-- The buy evaluation (strategy.py lines 60-73): when a buy threshold is
configured, the position is flat, the price is at or below the threshold
and the cooldown snapshot allows trading, attempt a market buy of
`p.quantity`; a successful order mutates the state, a failed one is
caught and leaves it unchanged. -/
def buyPhase (c : UpstoxClient) (p : StratParams) (env : IterEnv) (last_price : ℚ)
    (can_trade : Bool) (s : StrategyState) : StepOut :=
  let buyCond : Bool :=
    match p.buy_below with
    | some bb => decide (s.position_qty = 0) && decide (last_price ≤ bb) && can_trade
    | none => false
  if buyCond then
    match (place_market_order c env.buyEnv s.instrument_key "BUY" p.quantity).result with
    | .ok _ =>
        { state := { s with position_qty := s.position_qty + p.quantity,
                            total_trades := s.total_trades + 1,
                            last_trade_time := env.now },
          calls := [{ side := "BUY", qty := p.quantity }],
          trades := [{ side := "BUY", qty := p.quantity, price := last_price, time := env.now }] }
    | .error _ =>
        { state := s, calls := [{ side := "BUY", qty := p.quantity }], trades := [] }
  else { state := s, calls := [], trades := [] }

/-- The sell evaluation (strategy.py lines 74-86), continuing from the buy
output within the same iteration: when a sell threshold is configured, the
position is open, the price is at or above the threshold and the *same*
cooldown snapshot allows trading, attempt to sell the entire held
position; a failed order is caught and leaves the position unchanged. -/
def sellPhase (c : UpstoxClient) (p : StratParams) (env : IterEnv) (last_price : ℚ)
    (can_trade : Bool) (a : StepOut) : StepOut :=
  let s1 := a.state
  let sellCond : Bool :=
    match p.sell_above with
    | some sa => decide (0 < s1.position_qty) && decide (sa ≤ last_price) && can_trade
    | none => false
  if sellCond then
    match (place_market_order c env.sellEnv s1.instrument_key "SELL" s1.position_qty).result with
    | .ok _ =>
        { state := { s1 with position_qty := 0, total_trades := s1.total_trades + 1,
                             last_trade_time := env.now },
          calls := a.calls ++ [{ side := "SELL", qty := s1.position_qty }],
          trades := a.trades ++
            [{ side := "SELL", qty := s1.position_qty, price := last_price, time := env.now }] }
    | .error _ =>
        { state := s1,
          calls := a.calls ++ [{ side := "SELL", qty := s1.position_qty }],
          trades := a.trades }
  else a

/-- Lines 49-88 of `run_threshold_strategy`: one loop-body execution after
the stop/cap checks. Every exception from `get_ltp` and from
`place_market_order` is caught (`except Exception`), matching the
`Except.error` cases here; `can_trade` is computed once at line 58, before
either order attempt, and the same snapshot is passed to both phases. -/
def stepIter (c : UpstoxClient) (simPrice : String → ℚ → ℚ) (p : StratParams)
    (env : IterEnv) (s : StrategyState) : StepOut :=
  match (get_ltp c simPrice env.fetchEnv s.instrument_key).result with
  | .error _ => { state := s, calls := [], trades := [] }
  | .ok quote =>
    let can_trade : Bool := decide (p.cooldown_sec ≤ env.now - s.last_trade_time)
    sellPhase c p env quote.last_price can_trade
      (buyPhase c p env quote.last_price can_trade s)

/-- Line 45: `max_trades is not None and state.total_trades >= max_trades`. -/
def capReached (p : StratParams) (s : StrategyState) : Bool :=
  match p.max_trades with
  | some m => decide (m ≤ (s.total_trades : Int))
  | none => false

/-- Accumulated observable outcome of a bounded run of the loop. -/
structure RunOut where
  state : StrategyState
  fetches : Nat
  calls : List OrderCall
  trades : List Trade
  exited : Bool
deriving DecidableEq

/-- The `while` loop of `run_threshold_strategy` (lines 44-88), run for at
most `fuel` iterations with `envs i` the environment of iteration `i`;
`exited` records whether the loop left through the SIGINT flag or the
trade cap within the given fuel, and `fetches` counts `get_ltp` calls. -/
def runLoop (c : UpstoxClient) (simPrice : String → ℚ → ℚ) (p : StratParams)
    (envs : Nat → IterEnv) (i : Nat) (s : StrategyState) : Nat → RunOut
  | 0 => { state := s, fetches := 0, calls := [], trades := [], exited := false }
  | fuel + 1 =>
    if (envs i).stop || capReached p s then
      { state := s, fetches := 0, calls := [], trades := [], exited := true }
    else
      let step := stepIter c simPrice p (envs i) s
      let rest := runLoop c simPrice p envs (i + 1) step.state fuel
      { state := rest.state, fetches := rest.fetches + 1,
        calls := step.calls ++ rest.calls, trades := step.trades ++ rest.trades,
        exited := rest.exited }

/-- The fresh state of line 34. -/
def initState (instrument_key : String) : StrategyState :=
  { instrument_key := instrument_key, position_qty := 0, total_trades := 0, last_trade_time := 0 }

/-- The `run_threshold_strategy` entry (lines 31-34 plus the loop): raises
`ValueError` when both thresholds are absent, otherwise runs the loop from
the fresh state. -/
def run_threshold_strategy (c : UpstoxClient) (simPrice : String → ℚ → ℚ)
    (instrument_key : String) (p : StratParams) (envs : Nat → IterEnv) (fuel : Nat) :
    Except Err RunOut :=
  if p.buy_below.isNone && p.sell_above.isNone then
    .error (.valueError "Provide buy_below and/or sell_above threshold")
  else
    .ok (runLoop c simPrice p envs 0 (initState instrument_key) fuel)

/-! ## Gateway theorems -/

/-- C5: when the gateway is in dry-run mode, `place_market_order` with a
valid side and a positive quantity returns the synthetic acknowledgement
echoing the instrument key, (uppercased) side, quantity, product, validity
and tag plus the wall-clock timestamp, and touches neither the HTTP nor
the SDK backend, whether or not an access token is present. -/
theorem C5_dry_run_ack (c : UpstoxClient) (env : OrderEnv) (ik tt pr va : String)
    (q : Int) (tag : Option String)
    (hdry : c.dry_run = true) (hside : pyUpper tt = "BUY" ∨ pyUpper tt = "SELL") (hq : 0 < q) :
    place_market_order c env ik tt q pr va tag =
      { result := .ok (.obj (mkAck (pyUpper tt) ik q pr va tag env.t)),
        usedHttp := false, usedSdk := false } := by
  have hq2 : ¬ (q ≤ 0) := not_le.mpr hq
  unfold place_market_order
  rcases hside with h | h <;> simp [h, hdry, hq2]

/-- Witness for C5 at a concrete dry-run gateway without a token. -/
theorem C5_witness :
    place_market_order (mkUpstoxClient ⟨none, none, none, none, "u"⟩ true false false)
        ⟨7, ⟨true, 200, .ok .null⟩, .null⟩ "NSE_EQ|X" "buy" 3 "I" "DAY" none =
      { result := .ok (.obj (mkAck "BUY" "NSE_EQ|X" 3 "I" "DAY" none 7)),
        usedHttp := false, usedSdk := false } := by
  have h := C5_dry_run_ack (mkUpstoxClient ⟨none, none, none, none, "u"⟩ true false false)
    ⟨7, ⟨true, 200, .ok .null⟩, .null⟩ "NSE_EQ|X" "buy" "I" "DAY" 3 none rfl
    (Or.inl (by with_unfolding_all rfl)) (by decide)
  simpa using h

/-- C6: `get_ltp` takes the simulated path exactly when the gateway is in
dry-run mode and no access token is present, and takes the live HTTP path
exactly when an access token is present (dry-run or not). -/
theorem C6_backend_selection (c : UpstoxClient) (simPrice : String → ℚ → ℚ)
    (env : FetchEnv) (ik : String) :
    (get_ltp c simPrice env ik).usedSim = (c.dry_run && !c.config.hasToken) ∧
    (get_ltp c simPrice env ik).usedHttp = c.config.hasToken := by
  unfold get_ltp
  cases hd : c.dry_run <;> cases ht : c.config.hasToken <;> simp [hd, ht]
  repeat' split <;> simp

/-- C8: `place_market_order` validates the (uppercased) side and the
quantity before anything else: an invalid side or a non-positive quantity
yields a `ValueError` (the spec's ValidationError, a different constructor
from `RuntimeError`, the spec's GatewayError) and touches no backend. -/
theorem C8_validation_before_backends (c : UpstoxClient) (env : OrderEnv)
    (ik tt pr va : String) (q : Int) (tag : Option String)
    (h : (pyUpper tt ≠ "BUY" ∧ pyUpper tt ≠ "SELL") ∨ q ≤ 0) :
    (∃ msg, (place_market_order c env ik tt q pr va tag).result = .error (.valueError msg)) ∧
    (place_market_order c env ik tt q pr va tag).usedHttp = false ∧
    (place_market_order c env ik tt q pr va tag).usedSdk = false ∧
    (∀ m1 m2, Err.valueError m1 ≠ Err.runtimeError m2) := by
  unfold place_market_order
  by_cases hb : pyUpper tt = "BUY" ∨ pyUpper tt = "SELL"
  · have hq : q ≤ 0 := by
      rcases h with ⟨h1, h2⟩ | hq
      · rcases hb with hb | hb
        · exact absurd hb h1
        · exact absurd hb h2
      · exact hq
    rcases hb with hb | hb <;> simp [hb, hq]
  · push_neg at hb
    simp [hb.1, hb.2]

/-- Witness for C8 at the side "HOLD" with quantity 5. -/
theorem C8_witness :
    (∃ msg, (place_market_order (mkUpstoxClient ⟨none, none, some "tok", none, "u"⟩ false false false)
        ⟨0, ⟨true, 200, .ok .null⟩, .null⟩ "K" "HOLD" 5 "I" "DAY" none).result =
          .error (.valueError msg)) ∧
    (place_market_order (mkUpstoxClient ⟨none, none, some "tok", none, "u"⟩ false false false)
        ⟨0, ⟨true, 200, .ok .null⟩, .null⟩ "K" "HOLD" 5 "I" "DAY" none).usedHttp = false := by
  have h := C8_validation_before_backends
    (mkUpstoxClient ⟨none, none, some "tok", none, "u"⟩ false false false)
    ⟨0, ⟨true, 200, .ok .null⟩, .null⟩ "K" "HOLD" "I" "DAY" 5 none
    (Or.inl (by constructor <;> decide))
  exact ⟨h.1, h.2.1⟩

/-- C10: through the constructor of `UpstoxClient`, the legacy SDK session
exists only when an access token is present, while the SDK fallback
branches run only when no access token is present; hence neither quotes
nor orders are ever resolved through the legacy SDK path. -/
theorem C10_sdk_unreachable (config : Config) (dr lib ctor : Bool)
    (simPrice : String → ℚ → ℚ) (fenv : FetchEnv) (oenv : OrderEnv)
    (ik tt pr va : String) (q : Int) (tag : Option String) :
    (get_ltp (mkUpstoxClient config dr lib ctor) simPrice fenv ik).usedSdk = false ∧
    (place_market_order (mkUpstoxClient config dr lib ctor) oenv ik tt q pr va tag).usedSdk = false := by
  unfold get_ltp place_market_order mkUpstoxClient
  cases ht : config.hasToken <;> cases dr <;> simp [ht] <;>
    (repeat' split) <;> simp

/-! ## Quote extraction (C7) -/

/-- Test for a possibly-absent JSON number. -/
def isNumV : Option JVal → Bool
  | some (.num _) => true
  | _ => false

/-- Price findability in the words of claim C7 and the spec: some
recognized field name (ltp / last_price / last_traded_price / close)
holds a numeric value in the selected per-instrument node of the response
body. Stated from the spec, for comparison against the code-level
extraction. -/
def specNumericPriceFound (data : JObj) (instrument_key : String) : Bool :=
  match data.get "data" with
  | some (.obj d) =>
      match pyOr (d.get instrument_key) d.firstVal with
      | some (.obj n) =>
          isNumV (n.get "ltp") || isNumV (n.get "last_price") ||
          isNumV (n.get "last_traded_price") || isNumV (n.get "close")
      | _ => false
  | _ => false

/-- Corrected findability: the exact condition under which the extraction
avoids the shape error. Because the recognized names are chained with
Python `or`, a falsy (zero) number under the first three names counts as
missing, the final `close` lookup is kept even when its value is falsy,
and a numeric-or-bool top-level `ltp` acts as a fallback. -/
def priceRecoverable (data : JObj) (instrument_key : String) : Bool :=
  (match data.get "data" with
   | some (.obj d) =>
       match pyOr (d.get instrument_key) d.firstVal with
       | some (.obj n) =>
           truthyO (n.get "ltp") || truthyO (n.get "last_price") ||
           truthyO (n.get "last_traded_price") || (n.get "close").isSome
       | _ => false
   | _ => false)
  || (match data.get "ltp" with
      | some (.num _) => true
      | some (.bool _) => true
      | _ => false)

/-- Truthiness distributes over Python `or`. -/
theorem truthyO_pyOr (a b : Option JVal) : truthyO (pyOr a b) = (truthyO a || truthyO b) := by
  cases a with
  | none => rfl
  | some v => by_cases h : truthy v <;> simp [pyOr, truthyO, h]

/-- Python `or` yields an absent value exactly when the left side is falsy
and the right side is absent. -/
theorem pyOr_eq_none (a b : Option JVal) : pyOr a b = none ↔ truthyO a = false ∧ b = none := by
  cases a with
  | none => simp [pyOr, truthyO]
  | some v => by_cases h : truthy v <;> simp [pyOr, truthyO, h]

/-- Python `float()` raises `ValueError` or `TypeError`, never
`RuntimeError`. -/
theorem pyFloat_no_runtime (v : JVal) (msg : String) : pyFloat v ≠ .error (.runtimeError msg) := by
  cases v <;> simp [pyFloat]
  split <;> simp

/-- Response body whose per-instrument node holds the numeric price 0
under the recognized name ltp. -/
def c7body : JObj :=
  .cons "data" (.obj (.cons "NSE_EQ|X" (.obj (.cons "ltp" (.num 0) .nil)) .nil)) .nil

/-- Counterexample to C7 as stated: in this body a numeric price (0) is
present under the recognized name ltp, yet the extraction fails with the
shape error carrying the truncated serialized body — refuting the claimed
"if and only if no numeric price can be found under any recognized name". -/
theorem C7_counterexample :
    specNumericPriceFound c7body "NSE_EQ|X" = true ∧
    extractLtpFromBody c7body "NSE_EQ|X" =
      .error (.runtimeError (shapeMsg (.obj c7body))) :=
  ⟨rfl, rfl⟩


/-- Characterization of the shape error for every response body: the
extraction fails with the `RuntimeError` carrying the serialized body
truncated to 500 characters exactly when `priceRecoverable` is false. -/
theorem extract_shape_iff (data : JObj) (ik : String) :
    extractLtpFromBody data ik = .error (.runtimeError (shapeMsg (.obj data))) ↔
    priceRecoverable data ik = false := by
  unfold extractLtpFromBody priceRecoverable
  rcases hd : data.get "data" with _ | v
  · rcases ht : data.get "ltp" with _ | w
    · simp [hd, ht]
    · cases w <;> simp [hd, ht, pyFloat]
  · cases v
    case obj d =>
      rcases hn : pyOr (d.get ik) d.firstVal with _ | nv
      · rcases ht : data.get "ltp" with _ | w
        · simp [hd, hn, ht]
        · cases w <;> simp [hd, hn, ht, pyFloat]
      · cases nv
        case obj n =>
          rcases hc : pyOr (pyOr (pyOr (n.get "ltp") (n.get "last_price")) (n.get "last_traded_price")) (n.get "close") with _ | pv
          · have h4 := (pyOr_eq_none _ _).mp hc
            have h1 := h4.1
            simp only [truthyO_pyOr, Bool.or_eq_false_iff] at h1
            rcases ht : data.get "ltp" with _ | w
            · simp only [hd, hn, hc, ht]
              simp [h1.1.1, h1.1.2, h1.2, h4.2]
            · cases w <;> (simp only [hd, hn, hc, ht]; simp [h1.1.1, h1.1.2, h1.2, h4.2, pyFloat])
          · have hrec : (truthyO (n.get "ltp") || truthyO (n.get "last_price") ||
                truthyO (n.get "last_traded_price") || (n.get "close").isSome) = true := by
              rcases hcl : n.get "close" with _ | cv
              · have hx : truthyO (pyOr (pyOr (n.get "ltp") (n.get "last_price")) (n.get "last_traded_price")) = true := by
                  by_contra hb
                  have hb2 : truthyO (pyOr (pyOr (n.get "ltp") (n.get "last_price")) (n.get "last_traded_price")) = false :=
                    Bool.eq_false_iff.mpr hb
                  have hz := (pyOr_eq_none _ (n.get "close")).mpr ⟨hb2, hcl⟩
                  rw [hz] at hc
                  exact Option.noConfusion hc
                simp only [truthyO_pyOr] at hx
                simp [hx]
              · simp [hcl]
            rcases hf : pyFloat pv with e | q2
            · simp [hd, hn, hc, hf, hrec]
              intro heq
              exact pyFloat_no_runtime pv _ (by rw [hf, heq])
            · simp [hd, hn, hc, hf, hrec]
        all_goals (rcases ht : data.get "ltp" with _ | w
                   · simp [hd, hn, ht]
                   · cases w <;> simp [hd, hn, ht, pyFloat])
    all_goals (rcases ht : data.get "ltp" with _ | w
               · simp [hd, ht]
               · cases w <;> simp [hd, ht, pyFloat])


/-- Synonym acceptance with single-child tolerance: a nonzero price under
any recognized name in a single-child node (whatever its key) is
extracted with no timestamp. -/
theorem extract_price_synonyms (q : ℚ) (ik k name : String) (hq : q ≠ 0)
    (hname : name = "ltp" ∨ name = "last_price" ∨ name = "last_traded_price" ∨ name = "close") :
    extractLtpFromBody (.cons "data" (.obj (.cons k (.obj (.cons name (.num q) .nil)) .nil)) .nil) ik =
      .ok ⟨ik, q, none⟩ := by
  by_cases hk : k = ik <;>
    rcases hname with h | h | h | h <;> subst h <;>
    simp [extractLtpFromBody, JObj.get, JObj.firstVal, pyOr, truthy, hq, pyFloat, hk]


/-- Timestamp synonym acceptance: a non-empty timestamp string under
either recognized name is extracted alongside the price. -/
theorem extract_timestamp_synonyms (q : ℚ) (ik k ts tname : String) (hq : q ≠ 0) (hts : ts ≠ "")
    (htn : tname = "timestamp" ∨ tname = "exchange_timestamp") :
    extractLtpFromBody
        (.cons "data" (.obj (.cons k (.obj (.cons "ltp" (.num q) (.cons tname (.str ts) .nil))) .nil)) .nil) ik =
      .ok ⟨ik, q, some (.str ts)⟩ := by
  by_cases hk : k = ik <;>
    rcases htn with h | h <;> subst h <;>
    simp [extractLtpFromBody, JObj.get, JObj.firstVal, pyOr, truthy, hq, hts, pyFloat, hk]


/-- C7 amended: the extraction accepts the price under any of the
recognized synonyms, tolerates an absent instrument key by taking the
single child present, and fails with the `RuntimeError` (GatewayError)
carrying the response body truncated to 500 characters if and only if no
truthy price value is found under the recognized names: a falsy (zero)
price under ltp / last_price / last_traded_price counts as missing unless
the `close` key is present or the top-level `ltp` is numeric (the Python
`or` chain drops falsy values). -/
theorem C7_amended :
    (∀ (data : JObj) (ik : String),
       extractLtpFromBody data ik = .error (.runtimeError (shapeMsg (.obj data))) ↔
       priceRecoverable data ik = false) ∧
    (∀ (q : ℚ) (ik k name : String), q ≠ 0 →
       (name = "ltp" ∨ name = "last_price" ∨ name = "last_traded_price" ∨ name = "close") →
       extractLtpFromBody
           (.cons "data" (.obj (.cons k (.obj (.cons name (.num q) .nil)) .nil)) .nil) ik =
         .ok ⟨ik, q, none⟩) ∧
    (∀ (q : ℚ) (ik k ts tname : String), q ≠ 0 → ts ≠ "" →
       (tname = "timestamp" ∨ tname = "exchange_timestamp") →
       extractLtpFromBody
           (.cons "data"
             (.obj (.cons k (.obj (.cons "ltp" (.num q) (.cons tname (.str ts) .nil))) .nil)) .nil) ik =
         .ok ⟨ik, q, some (.str ts)⟩) :=
  ⟨extract_shape_iff, extract_price_synonyms, extract_timestamp_synonyms⟩

/-- Witness for C7 amended at concrete bodies: a single-child node under a
key other than the requested instrument with price 101 under close, and a
node carrying price 7 with an exchange_timestamp. -/
theorem C7_witness :
    extractLtpFromBody
        (.cons "data" (.obj (.cons "OTHER" (.obj (.cons "close" (.num 101) .nil)) .nil)) .nil)
        "NSE_EQ|X" = .ok ⟨"NSE_EQ|X", (101:ℚ), none⟩ ∧
    extractLtpFromBody
        (.cons "data"
          (.obj (.cons "K" (.obj (.cons "ltp" (.num 7)
            (.cons "exchange_timestamp" (.str "2026-01-01") .nil))) .nil)) .nil)
        "K" = .ok ⟨"K", (7:ℚ), some (.str "2026-01-01")⟩ :=
  ⟨C7_amended.2.1 101 "NSE_EQ|X" "OTHER" "close" (by decide)
      (Or.inr (Or.inr (Or.inr rfl))),
   C7_amended.2.2 7 "K" "K" "2026-01-01" "exchange_timestamp" (by decide) (by decide)
      (Or.inr rfl)⟩


/-! ## Strategy loop lemmas -/

/-- A successful `place_market_order` implies the quantity passed its
positivity check. -/
theorem place_ok_pos (c : UpstoxClient) (env : OrderEnv) (ik tt pr va : String)
    (q : Int) (tag : Option String) (r : JVal)
    (h : (place_market_order c env ik tt q pr va tag).result = .ok r) : 0 < q := by
  by_contra hq
  push_neg at hq
  unfold place_market_order at h
  by_cases hb : pyUpper tt = "BUY" ∨ pyUpper tt = "SELL"
  · rcases hb with hb | hb <;> simp [hb, hq] at h
  · push_neg at hb
    simp [hb.1, hb.2] at h

/-- Case analysis of the buy evaluation: either no fill happened (state
and trades unchanged; a call was made only if the flat-position guard
held), or a buy filled, which requires a flat position, a positive
quantity and the cooldown snapshot. -/
theorem buyPhase_cases (c : UpstoxClient) (p : StratParams) (env : IterEnv)
    (lp : ℚ) (ct : Bool) (s : StrategyState) :
    ((buyPhase c p env lp ct s).state = s ∧ (buyPhase c p env lp ct s).trades = [] ∧
     ((buyPhase c p env lp ct s).calls = [] ∨
      ((buyPhase c p env lp ct s).calls = [{ side := "BUY", qty := p.quantity }] ∧
       s.position_qty = 0)))
  ∨ (s.position_qty = 0 ∧ 0 < p.quantity ∧ ct = true ∧
     buyPhase c p env lp ct s =
       { state := { instrument_key := s.instrument_key,
                    position_qty := s.position_qty + p.quantity,
                    total_trades := s.total_trades + 1,
                    last_trade_time := env.now },
         calls := [{ side := "BUY", qty := p.quantity }],
         trades := [{ side := "BUY", qty := p.quantity, price := lp, time := env.now }] }) := by
  unfold buyPhase
  cases hbb : p.buy_below with
  | none => simp
  | some bb =>
    by_cases h0 : s.position_qty = 0 <;> by_cases hlp : lp ≤ bb <;> cases hct : ct <;>
      simp [h0, hlp]
    rcases hor : (place_market_order c env.buyEnv s.instrument_key "BUY" p.quantity).result with e | r
    · simp [hor, h0]
    · simp [hor]
      exact place_ok_pos c env.buyEnv s.instrument_key "BUY" "I" "DAY" p.quantity none r hor

/-- Case analysis of the sell evaluation: either no fill happened (state
and trades unchanged; a call was made only if the open-position guard
held), or the entire position was sold, which requires an open position
and the same cooldown snapshot. -/
theorem sellPhase_cases (c : UpstoxClient) (p : StratParams) (env : IterEnv)
    (lp : ℚ) (ct : Bool) (a : StepOut) :
    ((sellPhase c p env lp ct a).state = a.state ∧ (sellPhase c p env lp ct a).trades = a.trades ∧
     ((sellPhase c p env lp ct a).calls = a.calls ∨
      ((sellPhase c p env lp ct a).calls = a.calls ++ [{ side := "SELL", qty := a.state.position_qty }] ∧
       0 < a.state.position_qty)))
  ∨ (0 < a.state.position_qty ∧ ct = true ∧
     sellPhase c p env lp ct a =
       { state := { instrument_key := a.state.instrument_key, position_qty := 0,
                    total_trades := a.state.total_trades + 1, last_trade_time := env.now },
         calls := a.calls ++ [{ side := "SELL", qty := a.state.position_qty }],
         trades := a.trades ++
           [{ side := "SELL", qty := a.state.position_qty, price := lp, time := env.now }] }) := by
  unfold sellPhase
  cases hsa : p.sell_above with
  | none => simp
  | some sa =>
    by_cases h0 : 0 < a.state.position_qty <;> by_cases hlp : sa ≤ lp <;> cases hct : ct <;>
      simp [h0, hlp]
    rcases hor : (place_market_order c env.sellEnv a.state.instrument_key "SELL" a.state.position_qty).result with e | r
    · simp [hor, h0]
    · simp [hor]



/-- Master case analysis of one loop-body execution: either no fill
happened and the state is unchanged, or the fills of the iteration all
carry the iteration's `now`, the cooldown snapshot held against the
pre-iteration state, and the iteration was a buy, a sell of the entire
position, or a buy immediately resold within the same iteration. -/
theorem stepIter_cases (c : UpstoxClient) (simPrice : String → ℚ → ℚ) (p : StratParams)
    (env : IterEnv) (s : StrategyState) :
    ((stepIter c simPrice p env s).state = s ∧ (stepIter c simPrice p env s).trades = [])
  ∨ (∃ lp, p.cooldown_sec ≤ env.now - s.last_trade_time ∧
      (stepIter c simPrice p env s).state.last_trade_time = env.now ∧
      (stepIter c simPrice p env s).state.instrument_key = s.instrument_key ∧
      (∀ tr ∈ (stepIter c simPrice p env s).trades, tr.time = env.now) ∧
      ((s.position_qty = 0 ∧ 0 < p.quantity ∧
          (stepIter c simPrice p env s).state.position_qty = p.quantity ∧
          (stepIter c simPrice p env s).state.total_trades = s.total_trades + 1 ∧
          (stepIter c simPrice p env s).trades = [⟨"BUY", p.quantity, lp, env.now⟩])
       ∨ (0 < s.position_qty ∧
          (stepIter c simPrice p env s).state.position_qty = 0 ∧
          (stepIter c simPrice p env s).state.total_trades = s.total_trades + 1 ∧
          (stepIter c simPrice p env s).trades = [⟨"SELL", s.position_qty, lp, env.now⟩])
       ∨ (s.position_qty = 0 ∧ 0 < p.quantity ∧
          (stepIter c simPrice p env s).state.position_qty = 0 ∧
          (stepIter c simPrice p env s).state.total_trades = s.total_trades + 2 ∧
          (stepIter c simPrice p env s).trades =
            [⟨"BUY", p.quantity, lp, env.now⟩, ⟨"SELL", p.quantity, lp, env.now⟩]))) := by
  unfold stepIter
  rcases hf : (get_ltp c simPrice env.fetchEnv s.instrument_key).result with e | quote
  · simp [hf]
  · simp only [hf]
    generalize hctg : decide (p.cooldown_sec ≤ env.now - s.last_trade_time) = ct
    rcases buyPhase_cases c p env quote.last_price ct s with ⟨hbs, hbt, _⟩ | ⟨h0, hqp, hct, hbeq⟩ <;>
      rcases sellPhase_cases c p env quote.last_price ct
        (buyPhase c p env quote.last_price ct s) with ⟨hss, hst, _⟩ | ⟨hpos, hct2, hseq⟩
    · exact Or.inl ⟨hss.trans hbs, hst.trans hbt⟩
    · -- sell only
      right
      refine ⟨quote.last_price, of_decide_eq_true (hctg.trans hct2), ?_, ?_, ?_, ?_⟩
      · rw [hseq]
      · rw [hseq]; simp [hbs]
      · intro tr htr
        rw [hseq] at htr
        simp [hbt] at htr
        simp [htr]
      · refine Or.inr (Or.inl ⟨?_, ?_, ?_, ?_⟩)
        · rw [hbs] at hpos; exact hpos
        · rw [hseq]
        · rw [hseq]; simp [hbs]
        · rw [hseq]; simp [hbt, hbs]
    · -- buy only
      right
      refine ⟨quote.last_price, of_decide_eq_true (hctg.trans hct), ?_, ?_, ?_, ?_⟩
      · rw [hss, hbeq]
      · rw [hss, hbeq]
      · intro tr htr
        rw [hst, hbeq] at htr
        simp at htr
        simp [htr]
      · refine Or.inl ⟨h0, hqp, ?_, ?_, ?_⟩
        · rw [hss, hbeq]; simp [h0]
        · rw [hss, hbeq]
        · rw [hst, hbeq]
    · -- buy then sell in one iteration
      right
      refine ⟨quote.last_price, of_decide_eq_true (hctg.trans hct), ?_, ?_, ?_, ?_⟩
      · rw [hseq]
      · rw [hseq]; simp [hbeq]
      · intro tr htr
        rw [hseq] at htr
        simp [hbeq] at htr
        rcases htr with h | h <;> simp [h]
      · refine Or.inr (Or.inr ⟨h0, hqp, ?_, ?_, ?_⟩)
        · rw [hseq]
        · rw [hseq]; simp [hbeq]
        · rw [hseq]; simp [hbeq, h0]



/-- A failed quote fetch short-circuits the whole iteration: no order
call, no trade, state unchanged (strategy.py lines 52-55). -/
theorem stepIter_fetch_err (c : UpstoxClient) (simPrice : String → ℚ → ℚ) (p : StratParams)
    (env : IterEnv) (s : StrategyState) (e : Err)
    (hf : (get_ltp c simPrice env.fetchEnv s.instrument_key).result = .error e) :
    stepIter c simPrice p env s = { state := s, calls := [], trades := [] } := by
  unfold stepIter
  rw [hf]

/-- Every call that reaches `place_market_order` in an iteration is a BUY
of the configured quantity attempted only at a flat position, or a SELL of
the entire position held at the attempt (the pre-iteration position, or
the just-bought quantity when a buy filled earlier in the same
iteration). -/
theorem stepIter_calls (c : UpstoxClient) (simPrice : String → ℚ → ℚ) (p : StratParams)
    (env : IterEnv) (s : StrategyState) (call : OrderCall)
    (h : call ∈ (stepIter c simPrice p env s).calls) :
    (call.side = "BUY" ∧ call.qty = p.quantity ∧ s.position_qty = 0)
  ∨ (call.side = "SELL" ∧ 0 < call.qty ∧
      (call.qty = s.position_qty ∨ (s.position_qty = 0 ∧ call.qty = p.quantity))) := by
  unfold stepIter at h
  rcases hf : (get_ltp c simPrice env.fetchEnv s.instrument_key).result with e | quote <;>
    rw [hf] at h
  · simp at h
  · dsimp only at h
    generalize hctg : decide (p.cooldown_sec ≤ env.now - s.last_trade_time) = ct at h
    rcases buyPhase_cases c p env quote.last_price ct s with ⟨hbs, hbt, hbc⟩ | ⟨h0, hqp, hct, hbeq⟩ <;>
      rcases sellPhase_cases c p env quote.last_price ct
        (buyPhase c p env quote.last_price ct s) with ⟨hss, hst, hsc⟩ | ⟨hpos, hct2, hseq⟩
    · rcases hsc with hsc | ⟨hsc, hp2⟩ <;> rw [hsc] at h
      · rcases hbc with hbc | ⟨hbc, hz⟩ <;> rw [hbc] at h
        · simp at h
        · simp at h
          exact Or.inl ⟨by simp [h], by simp [h], hz⟩
      · rw [hbs] at hp2
        rcases hbc with hbc | ⟨hbc, hz⟩ <;> rw [hbc] at h <;> simp at h
        · exact Or.inr ⟨by simp [h], by rw [h]; simpa [hbs] using hp2, Or.inl (by rw [h]; simp [hbs])⟩
        · rcases h with h | h
          · exact Or.inl ⟨by simp [h], by simp [h], hz⟩
          · exact Or.inr ⟨by simp [h], by rw [h]; simpa [hbs] using hp2, Or.inl (by rw [h]; simp [hbs])⟩
    · rw [hseq] at h
      rw [hbs] at hpos
      rcases hbc with hbc | ⟨hbc, hz⟩ <;> rw [hbc] at h <;> simp at h
      · exact Or.inr ⟨by simp [h], by rw [h]; simpa [hbs] using hpos, Or.inl (by rw [h]; simp [hbs])⟩
      · rcases h with h | h
        · exact Or.inl ⟨by simp [h], by simp [h], hz⟩
        · exact Or.inr ⟨by simp [h], by rw [h]; simpa [hbs] using hpos, Or.inl (by rw [h]; simp [hbs])⟩
    · rcases hsc with hsc | ⟨hsc, hp2⟩ <;> rw [hsc, hbeq] at h <;> simp at h
      · exact Or.inl ⟨by simp [h], by simp [h], h0⟩
      · rw [hbeq] at hp2
        simp [h0] at hp2
        rcases h with h | h
        · exact Or.inl ⟨by simp [h], by simp [h], h0⟩
        · refine Or.inr ⟨by simp [h], ?_, Or.inr ⟨h0, ?_⟩⟩
          · rw [h]; simpa [hbeq, h0] using hp2
          · rw [h]; simp [hbeq, h0]
    · rw [hseq, hbeq] at h
      simp at h
      rcases h with h | h
      · exact Or.inl ⟨by simp [h], by simp [h], h0⟩
      · refine Or.inr ⟨by simp [h], ?_, Or.inr ⟨h0, ?_⟩⟩
        · rw [h]; simp [hbeq, h0, hqp]
        · rw [h]; simp [hbeq, h0]



/-- Successive-fill time discipline: each fill happens at least `cool`
after the reference time, or at exactly the reference time (two fills of
one iteration share the same `now`); the reference advances to each
fill's time. -/
def chainOK (cool : ℚ) : ℚ → List Trade → Prop
  | _, [] => True
  | t0, tr :: rest => (cool ≤ tr.time - t0 ∨ tr.time = t0) ∧ chainOK cool tr.time rest

/-- The time of the last fill in the list, or the reference time when the
list is empty. -/
def lastTime (t0 : ℚ) : List Trade → ℚ
  | [] => t0
  | tr :: rest => lastTime tr.time rest

/-- Chained fill lists concatenate when the second starts at the first's
last fill time. -/
theorem chainOK_append (cool t0 : ℚ) (xs ys : List Trade)
    (hx : chainOK cool t0 xs) (hy : chainOK cool (lastTime t0 xs) ys) :
    chainOK cool t0 (xs ++ ys) := by
  induction xs generalizing t0 with
  | nil => simpa [lastTime] using hy
  | cons x xs ih =>
    exact ⟨hx.1, ih x.time hx.2 (by simpa [lastTime] using hy)⟩

/-- Last-fill time of a concatenation. -/
theorem lastTime_append (t0 : ℚ) (xs ys : List Trade) :
    lastTime t0 (xs ++ ys) = lastTime (lastTime t0 xs) ys := by
  induction xs generalizing t0 with
  | nil => simp [lastTime]
  | cons x xs ih => simp [lastTime, ih]

/-- A chained list constrains each consecutive pair of fills. -/
theorem chainOK_pairs (cool t0 : ℚ) (l1 l2 : List Trade) (tr1 tr2 : Trade)
    (hc : chainOK cool t0 (l1 ++ tr1 :: tr2 :: l2)) :
    cool ≤ tr2.time - tr1.time ∨ tr2.time = tr1.time := by
  induction l1 generalizing t0 with
  | nil => exact hc.2.1
  | cons x xs ih => exact ih x.time hc.2

/-- Run-level invariant: the fills of a bounded run form a chain from the
starting `last_trade_time`, and the final `last_trade_time` is the last
fill's time. -/
theorem runLoop_chain (c : UpstoxClient) (simPrice : String → ℚ → ℚ) (p : StratParams)
    (envs : Nat → IterEnv) (fuel : Nat) :
    ∀ (i : Nat) (s : StrategyState),
      chainOK p.cooldown_sec s.last_trade_time (runLoop c simPrice p envs i s fuel).trades ∧
      (runLoop c simPrice p envs i s fuel).state.last_trade_time =
        lastTime s.last_trade_time (runLoop c simPrice p envs i s fuel).trades := by
  induction fuel with
  | zero => intro i s; exact ⟨trivial, rfl⟩
  | succ fuel ih =>
    intro i s
    unfold runLoop
    by_cases hstop : ((envs i).stop || capReached p s) = true
    · simp [hstop, chainOK, lastTime]
    · rw [if_neg hstop]
      dsimp only
      have hrest := ih (i + 1) (stepIter c simPrice p (envs i) s).state
      rcases stepIter_cases c simPrice p (envs i) s with ⟨hs, ht⟩ | ⟨lp, hct, hltt, _, _, hcases⟩
      · rw [hs, ht]
        have hrest2 := ih (i + 1) s
        constructor
        · simpa using hrest2.1
        · simpa [lastTime] using hrest2.2
      · have hA : chainOK p.cooldown_sec s.last_trade_time (stepIter c simPrice p (envs i) s).trades ∧
            lastTime s.last_trade_time (stepIter c simPrice p (envs i) s).trades = (envs i).now := by
          rcases hcases with ⟨_, _, _, _, htr⟩ | ⟨_, _, _, htr⟩ | ⟨_, _, _, _, htr⟩ <;>
            rw [htr] <;> simp [chainOK, lastTime] <;> exact Or.inl hct
        rw [hltt] at hrest
        constructor
        · refine chainOK_append _ _ _ _ hA.1 ?_
          rw [hA.2]
          exact hrest.1
        · show (runLoop c simPrice p envs (i + 1) (stepIter c simPrice p (envs i) s).state fuel).state.last_trade_time = _
          rw [lastTime_append, hA.2]
          exact hrest.2



/-! ## Claim theorems about the loop -/

/-- C1: in every run of the strategy loop, any two consecutive successful
trades at times t1 < t2 satisfy t2 - t1 >= cooldown_sec; and within one
iteration the buy and the sell evaluation share the same now/can_trade
snapshot taken before either order is attempted: when two fills happen in
one iteration both carry the iteration's `now` and the cooldown check
held against the pre-iteration state. -/
theorem C1_cooldown (c : UpstoxClient) (simPrice : String → ℚ → ℚ) (ik : String)
    (p : StratParams) (envs : Nat → IterEnv) (fuel : Nat) :
    (∀ (l1 l2 : List Trade) (tr1 tr2 : Trade),
       (runLoop c simPrice p envs 0 (initState ik) fuel).trades = l1 ++ tr1 :: tr2 :: l2 →
       tr1.time < tr2.time → p.cooldown_sec ≤ tr2.time - tr1.time) ∧
    (∀ (env : IterEnv) (s : StrategyState),
       (stepIter c simPrice p env s).trades.length = 2 →
       (∀ tr ∈ (stepIter c simPrice p env s).trades, tr.time = env.now) ∧
       p.cooldown_sec ≤ env.now - s.last_trade_time) := by
  constructor
  · intro l1 l2 tr1 tr2 hsplit hlt
    have hch := (runLoop_chain c simPrice p envs fuel 0 (initState ik)).1
    rw [hsplit] at hch
    rcases chainOK_pairs _ _ _ _ _ _ hch with h | h
    · exact h
    · exact absurd h (ne_of_gt hlt)
  · intro env s hlen
    rcases stepIter_cases c simPrice p env s with ⟨_, ht⟩ | ⟨lp, hct, _, _, htimes, _⟩
    · rw [ht] at hlen
      simp at hlen
    · exact ⟨htimes, hct⟩

/-- Gateway, price path, order environment, parameters and iteration
environments of the concrete two-trade witness run. -/
def cwClient : UpstoxClient := mkUpstoxClient ⟨none, none, none, none, "u"⟩ true false false

def cwSim : String → ℚ → ℚ := fun _ t => if t = 0 then 50 else 200

def cwOE : OrderEnv := ⟨0, ⟨true, 200, .ok .null⟩, .null⟩

def cwP : StratParams := ⟨some 100, some 150, 1, 2, none, 5⟩

def cwEnvs : Nat → IterEnv := fun i =>
  if i = 0 then ⟨false, ⟨0, ⟨true, 200, .ok .null⟩, .nil⟩, 100, cwOE, cwOE⟩
  else ⟨false, ⟨1, ⟨true, 200, .ok .null⟩, .nil⟩, 110, cwOE, cwOE⟩

/-- Witness for C1: a concrete run trading at times 100 and 110 with
cooldown 5. -/
theorem C1_witness :
    (runLoop cwClient cwSim cwP cwEnvs 0 (initState "K") 2).trades =
      [⟨"BUY", 1, 50, 100⟩, ⟨"SELL", 1, 200, 110⟩] ∧
    (5 : ℚ) ≤ 110 - 100 :=
  ⟨by with_unfolding_all rfl,
   (C1_cooldown cwClient cwSim "K" cwP cwEnvs 2).1 [] [] ⟨"BUY", 1, 50, 100⟩
     ⟨"SELL", 1, 200, 110⟩ (by with_unfolding_all rfl) (by decide)⟩



/-- Position invariant: flat, or holding exactly the configured (and then
necessarily positive) buy quantity. -/
def posInvariant (p : StratParams) (s : StrategyState) : Prop :=
  s.position_qty = 0 ∨ (s.position_qty = p.quantity ∧ 0 < p.quantity)

/-- One loop body preserves the position invariant. -/
theorem stepIter_posInvariant (c : UpstoxClient) (simPrice : String → ℚ → ℚ)
    (p : StratParams) (env : IterEnv) (s : StrategyState) (h : posInvariant p s) :
    posInvariant p (stepIter c simPrice p env s).state := by
  rcases stepIter_cases c simPrice p env s with ⟨hs, _⟩ | ⟨lp, _, _, _, _, hcases⟩
  · rw [hs]; exact h
  · rcases hcases with ⟨_, hq, hpos, _, _⟩ | ⟨_, hpos, _, _⟩ | ⟨_, _, hpos, _, _⟩
    · exact Or.inr ⟨hpos, hq⟩
    · exact Or.inl hpos
    · exact Or.inl hpos

/-- Bounded runs preserve the position invariant. -/
theorem runLoop_posInvariant (c : UpstoxClient) (simPrice : String → ℚ → ℚ)
    (p : StratParams) (envs : Nat → IterEnv) (fuel : Nat) :
    ∀ (i : Nat) (s : StrategyState), posInvariant p s →
      posInvariant p (runLoop c simPrice p envs i s fuel).state := by
  induction fuel with
  | zero => intro i s h; exact h
  | succ fuel ih =>
    intro i s h
    unfold runLoop
    by_cases hstop : ((envs i).stop || capReached p s) = true
    · rw [if_pos hstop]; exact h
    · rw [if_neg hstop]
      dsimp only
      exact ih (i + 1) _ (stepIter_posInvariant c simPrice p (envs i) s h)

/-- C2: at every point of every run the position is 0 or exactly the
configured buy quantity and never negative; one loop body changes the
position only 0 to quantity on a successful buy, quantity to 0 on a
successful sell of the entire held amount (or both within one iteration),
with the corresponding fills recorded; and every order that reaches the
gateway is a BUY of the configured quantity attempted at a flat position
or a SELL of the entire position held at the attempt. -/
theorem C2_position_invariant (c : UpstoxClient) (simPrice : String → ℚ → ℚ) (ik : String)
    (p : StratParams) (envs : Nat → IterEnv) :
    (∀ fuel, (runLoop c simPrice p envs 0 (initState ik) fuel).state.position_qty = 0 ∨
       ((runLoop c simPrice p envs 0 (initState ik) fuel).state.position_qty = p.quantity ∧
        0 < p.quantity)) ∧
    (∀ fuel, 0 ≤ (runLoop c simPrice p envs 0 (initState ik) fuel).state.position_qty) ∧
    (∀ (env : IterEnv) (s : StrategyState),
       (stepIter c simPrice p env s).state.position_qty = s.position_qty ∨
       (s.position_qty = 0 ∧ 0 < p.quantity ∧
        (stepIter c simPrice p env s).state.position_qty = p.quantity ∧
        (∃ lp, ⟨"BUY", p.quantity, lp, env.now⟩ ∈ (stepIter c simPrice p env s).trades)) ∨
       (0 < s.position_qty ∧ (stepIter c simPrice p env s).state.position_qty = 0 ∧
        (∃ lp, ⟨"SELL", s.position_qty, lp, env.now⟩ ∈ (stepIter c simPrice p env s).trades)) ∨
       (s.position_qty = 0 ∧ 0 < p.quantity ∧
        (stepIter c simPrice p env s).state.position_qty = 0 ∧
        (∃ lp, ⟨"BUY", p.quantity, lp, env.now⟩ ∈ (stepIter c simPrice p env s).trades ∧
               ⟨"SELL", p.quantity, lp, env.now⟩ ∈ (stepIter c simPrice p env s).trades))) ∧
    (∀ (env : IterEnv) (s : StrategyState) (call : OrderCall),
       call ∈ (stepIter c simPrice p env s).calls →
       (call.side = "BUY" ∧ call.qty = p.quantity ∧ s.position_qty = 0) ∨
       (call.side = "SELL" ∧ 0 < call.qty ∧
        (call.qty = s.position_qty ∨ (s.position_qty = 0 ∧ call.qty = p.quantity)))) := by
  refine ⟨?_, ?_, ?_, ?_⟩
  · intro fuel
    exact runLoop_posInvariant c simPrice p envs fuel 0 (initState ik) (Or.inl rfl)
  · intro fuel
    rcases runLoop_posInvariant c simPrice p envs fuel 0 (initState ik) (Or.inl rfl) with h | ⟨h, hq⟩
    · rw [h]
    · rw [h]; exact le_of_lt hq
  · intro env s
    rcases stepIter_cases c simPrice p env s with ⟨hs, _⟩ | ⟨lp, _, _, _, _, hcases⟩
    · exact Or.inl (by rw [hs])
    · rcases hcases with ⟨h0, hq, hpos, _, htr⟩ | ⟨h0, hpos, _, htr⟩ | ⟨h0, hq, hpos, _, htr⟩
      · exact Or.inr (Or.inl ⟨h0, hq, hpos, lp, by rw [htr]; simp⟩)
      · exact Or.inr (Or.inr (Or.inl ⟨h0, hpos, lp, by rw [htr]; simp⟩))
      · exact Or.inr (Or.inr (Or.inr ⟨h0, hq, hpos, lp, by rw [htr]; simp, by rw [htr]; simp⟩))
  · intro env s call h
    exact stepIter_calls c simPrice p env s call h

/-- Parameters and iteration environment of the concrete buy-call witness. -/
def c2P : StratParams := ⟨some 100, none, 5, 2, none, 0⟩

/-- Iteration environment of the concrete buy-call witness. -/
def c2Env : IterEnv := ⟨false, ⟨0, ⟨true, 200, .ok .null⟩, .nil⟩, 100, cwOE, cwOE⟩

/-- Witness for C2 at a concrete iteration whose only gateway call is a
BUY of quantity 5 from a flat position. -/
theorem C2_witness :
    ((⟨"BUY", 5⟩ : OrderCall).side = "BUY" ∧ (⟨"BUY", 5⟩ : OrderCall).qty = c2P.quantity ∧
      (initState "K").position_qty = 0) ∨
    ((⟨"BUY", 5⟩ : OrderCall).side = "SELL" ∧ 0 < (⟨"BUY", 5⟩ : OrderCall).qty ∧
      ((⟨"BUY", 5⟩ : OrderCall).qty = (initState "K").position_qty ∨
       ((initState "K").position_qty = 0 ∧ (⟨"BUY", 5⟩ : OrderCall).qty = c2P.quantity))) := by
  have hc : (stepIter cwClient cwSim c2P c2Env (initState "K")).calls = [⟨"BUY", 5⟩] := by
    with_unfolding_all rfl
  exact (C2_position_invariant cwClient cwSim "K" c2P (fun _ => c2Env)).2.2.2 c2Env
    (initState "K") ⟨"BUY", 5⟩ (by rw [hc]; simp)



/-- C4: no fetch or order error escapes an iteration. A failed fetch
leaves the state exactly unchanged with no order call; an iteration with
no fill leaves the state unchanged; and when every fetch fails the loop
stays alive for all N iterations (one fetch attempt per iteration, never
exiting) with the state still the initial one. -/
theorem C4_error_resilience (c : UpstoxClient) (simPrice : String → ℚ → ℚ) (ik : String)
    (p : StratParams) (envs : Nat → IterEnv) :
    (∀ (env : IterEnv) (s : StrategyState) (e : Err),
       (get_ltp c simPrice env.fetchEnv s.instrument_key).result = .error e →
       stepIter c simPrice p env s = { state := s, calls := [], trades := [] }) ∧
    (∀ (env : IterEnv) (s : StrategyState),
       (stepIter c simPrice p env s).trades = [] → (stepIter c simPrice p env s).state = s) ∧
    (∀ N, (∀ n, (envs n).stop = false) →
       capReached p (initState ik) = false →
       (∀ n, ∃ e, (get_ltp c simPrice ((envs n).fetchEnv) ik).result = .error e) →
       runLoop c simPrice p envs 0 (initState ik) N =
         { state := initState ik, fetches := N, calls := [], trades := [], exited := false }) := by
  refine ⟨?_, ?_, ?_⟩
  · intro env s e he
    exact stepIter_fetch_err c simPrice p env s e he
  · intro env s ht
    rcases stepIter_cases c simPrice p env s with ⟨hs, _⟩ | ⟨lp, _, _, _, _, hcases⟩
    · exact hs
    · rcases hcases with ⟨_, _, _, _, htr⟩ | ⟨_, _, _, htr⟩ | ⟨_, _, _, _, htr⟩ <;>
        rw [htr] at ht <;> simp at ht
  · intro N hstop hcap hferr
    have main : ∀ (M i : Nat),
        runLoop c simPrice p envs i (initState ik) M =
          { state := initState ik, fetches := M, calls := [], trades := [], exited := false } := by
      intro M
      induction M with
      | zero => intro i; rfl
      | succ M ihM =>
        intro i
        unfold runLoop
        rw [hstop i, hcap]
        simp only [Bool.or_self, Bool.false_eq_true, if_false]
        obtain ⟨e, he⟩ := hferr i
        rw [stepIter_fetch_err c simPrice p (envs i) (initState ik) e he]
        rw [ihM (i + 1)]
        rfl
    exact main N 0

/-- Gateway with neither token nor SDK and dry-run off: every quote fetch
fails with the no-credentials error (the spec's scenario B). -/
def c4Client : UpstoxClient := mkUpstoxClient ⟨none, none, none, none, "u"⟩ false false false

/-- Parameters of the always-failing-fetch witness run. -/
def c4P : StratParams := ⟨some 100, none, 1, 2, none, 5⟩

/-- Iteration environments of the always-failing-fetch witness run. -/
def c4Envs : Nat → IterEnv := fun _ => ⟨false, ⟨0, ⟨true, 200, .ok .null⟩, .nil⟩, 100, cwOE, cwOE⟩

/-- Witness for C4: three iterations of always-failing fetches leave the
initial state untouched while the loop keeps polling. -/
theorem C4_witness :
    runLoop c4Client cwSim c4P c4Envs 0 (initState "K") 3 =
      { state := initState "K", fetches := 3, calls := [], trades := [], exited := false } :=
  (C4_error_resilience c4Client cwSim "K" c4P c4Envs).2.2 3 (fun _ => rfl) rfl
    (fun _ => ⟨.runtimeError "No Upstox credentials available for LTP. Provide UPSTOX_ACCESS_TOKEN.",
      rfl⟩)



/-- Once the trade cap is reached, any further run performs no fetch,
keeps the state, and exits at the top of the next iteration. -/
theorem runLoop_capped (c : UpstoxClient) (simPrice : String → ℚ → ℚ) (p : StratParams)
    (envs : Nat → IterEnv) :
    ∀ (fuel i : Nat) (s : StrategyState), capReached p s = true →
      (runLoop c simPrice p envs i s fuel).fetches = 0 ∧
      (runLoop c simPrice p envs i s fuel).state = s ∧
      (runLoop c simPrice p envs i s fuel).trades = [] ∧
      (0 < fuel → (runLoop c simPrice p envs i s fuel).exited = true) := by
  intro fuel i s hcap
  cases fuel with
  | zero => exact ⟨rfl, rfl, rfl, fun h => absurd h (by simp)⟩
  | succ fuel =>
    unfold runLoop
    rw [hcap]
    simp

/-- An iteration with at least one fill raises the trade counter by at
least one. -/
theorem stepIter_total_ge (c : UpstoxClient) (simPrice : String → ℚ → ℚ) (p : StratParams)
    (env : IterEnv) (s : StrategyState)
    (h : (stepIter c simPrice p env s).trades ≠ []) :
    s.total_trades + 1 ≤ (stepIter c simPrice p env s).state.total_trades := by
  rcases stepIter_cases c simPrice p env s with ⟨_, ht⟩ | ⟨lp, _, _, _, _, hcases⟩
  · exact absurd ht h
  · rcases hcases with ⟨_, _, _, htt, _⟩ | ⟨_, _, htt, _⟩ | ⟨_, _, _, htt, _⟩ <;> omega

/-- C9: when the cap is already reached, the loop exits at the top of the
next iteration before any quote fetch, leaving the state untouched; and
with max_trades = 1 an iteration whose buy (or sell) fills is followed by
no further fetch: the whole remaining run performs exactly the one fetch
of that iteration. -/
theorem C9_trade_cap (c : UpstoxClient) (simPrice : String → ℚ → ℚ) (p : StratParams)
    (envs : Nat → IterEnv) :
    (∀ (fuel i : Nat) (s : StrategyState), capReached p s = true →
       (runLoop c simPrice p envs i s fuel).fetches = 0 ∧
       (runLoop c simPrice p envs i s fuel).state = s ∧
       (runLoop c simPrice p envs i s fuel).trades = [] ∧
       (0 < fuel → (runLoop c simPrice p envs i s fuel).exited = true)) ∧
    (∀ (fuel i : Nat) (s : StrategyState),
       p.max_trades = some 1 → s.total_trades = 0 → (envs i).stop = false →
       (stepIter c simPrice p (envs i) s).trades ≠ [] →
       (runLoop c simPrice p envs i s (fuel + 1)).fetches = 1) := by
  constructor
  · exact runLoop_capped c simPrice p envs
  · intro fuel i s hmax htot hstop htr
    unfold runLoop
    rw [hstop]
    have hcap0 : capReached p s = false := by
      simp [capReached, hmax, htot]
    rw [hcap0]
    simp only [Bool.or_self, Bool.false_eq_true, if_false]
    have hge := stepIter_total_ge c simPrice p (envs i) s htr
    have hcap1 : capReached p (stepIter c simPrice p (envs i) s).state = true := by
      simp [capReached, hmax]
      omega
    rw [(runLoop_capped c simPrice p envs fuel (i + 1)
      (stepIter c simPrice p (envs i) s).state hcap1).1]

/-- Parameters of the trade-cap witness run: max_trades = 1. -/
def c9P : StratParams := ⟨some 100, none, 1, 2, some 1, 0⟩

/-- Witness for C9: with max_trades = 1 and a buy filling on the first
iteration, a four-iteration run performs exactly one fetch. -/
theorem C9_witness :
    (runLoop cwClient cwSim c9P (fun _ => c2Env) 0 (initState "K") 4).fetches = 1 := by
  have htr : (stepIter cwClient cwSim c9P c2Env (initState "K")).trades =
      [⟨"BUY", 1, 50, 100⟩] := by with_unfolding_all rfl
  exact (C9_trade_cap cwClient cwSim c9P (fun _ => c2Env)).2 3 0 (initState "K") rfl rfl rfl
    (by rw [htr]; simp)



/-- Parameters with quantity 0 and a buy threshold, for C3. -/
def c3P : StratParams := ⟨some 100, none, 0, 2, none, 5⟩

/-- Iteration environment of the C3 run (price 50, time 100). -/
def c3Env : IterEnv := ⟨false, ⟨0, ⟨true, 200, .ok .null⟩, .nil⟩, 100, cwOE, cwOE⟩

/-- Counterexample to C3 as stated: with quantity 0 the engine does not
reject at construction — the run starts (`Except.ok`), performs a fetch,
and the triggered buy reaches `place_market_order` with quantity 0 (one
recorded gateway call), where it is rejected; the loop state is
unchanged. -/
theorem C3_counterexample :
    run_threshold_strategy cwClient cwSim "NSE_EQ|X" c3P (fun _ => c3Env) 1 =
      .ok { state := initState "NSE_EQ|X", fetches := 1,
            calls := [{ side := "BUY", qty := 0 }], trades := [], exited := false } := by
  with_unfolding_all rfl

/-- With a non-positive configured quantity and a flat position, no fill
can happen in an iteration. -/
theorem stepIter_nonpos_qty (c : UpstoxClient) (simPrice : String → ℚ → ℚ) (p : StratParams)
    (env : IterEnv) (s : StrategyState) (hq : p.quantity ≤ 0) (h0 : s.position_qty = 0) :
    (stepIter c simPrice p env s).state = s ∧ (stepIter c simPrice p env s).trades = [] := by
  rcases stepIter_cases c simPrice p env s with ⟨hs, ht⟩ | ⟨lp, _, _, _, _, hcases⟩
  · exact ⟨hs, ht⟩
  · rcases hcases with ⟨_, hqp, _, _, _⟩ | ⟨hpos, _, _, _⟩ | ⟨_, hqp, _, _, _⟩
    · exact absurd hqp (not_lt.mpr hq)
    · rw [h0] at hpos
      exact absurd hpos (lt_irrefl 0)
    · exact absurd hqp (not_lt.mpr hq)

/-- C3 amended: a non-positive order quantity is not rejected at
construction time — construction succeeds whenever at least one threshold
is configured, regardless of quantity; the invalid quantity is instead
rejected when a triggered buy reaches the gateway, whose
`place_market_order` fails with the `ValueError` before touching any
backend; consequently a run with non-positive quantity never fills and
never changes state. -/
theorem C3_amended (c : UpstoxClient) (simPrice : String → ℚ → ℚ) (ik : String)
    (p : StratParams) (envs : Nat → IterEnv) (fuel : Nat) :
    (p.buy_below.isSome ∨ p.sell_above.isSome →
       run_threshold_strategy c simPrice ik p envs fuel =
         .ok (runLoop c simPrice p envs 0 (initState ik) fuel)) ∧
    (∀ (env : OrderEnv) (key : String) (q : Int) (pr va : String) (tag : Option String),
       q ≤ 0 →
       (place_market_order c env key "BUY" q pr va tag).result =
         .error (.valueError "quantity must be positive") ∧
       (place_market_order c env key "BUY" q pr va tag).usedHttp = false ∧
       (place_market_order c env key "BUY" q pr va tag).usedSdk = false) ∧
    (p.quantity ≤ 0 →
       (runLoop c simPrice p envs 0 (initState ik) fuel).state = initState ik ∧
       (runLoop c simPrice p envs 0 (initState ik) fuel).trades = []) := by
  refine ⟨?_, ?_, ?_⟩
  · intro hsome
    unfold run_threshold_strategy
    rcases hsome with h | h <;> rcases hv : p.buy_below with _ | v <;>
      rcases hw : p.sell_above with _ | w <;>
      simp_all
  · intro env key q pr va tag hq
    have hup : pyUpper "BUY" = "BUY" := rfl
    unfold place_market_order
    simp [hup, hq]
  · intro hq
    have main : ∀ (M i : Nat),
        (runLoop c simPrice p envs i (initState ik) M).state = initState ik ∧
        (runLoop c simPrice p envs i (initState ik) M).trades = [] := by
      intro M
      induction M with
      | zero => intro i; exact ⟨rfl, rfl⟩
      | succ M ihM =>
        intro i
        unfold runLoop
        by_cases hstop : ((envs i).stop || capReached p (initState ik)) = true
        · rw [if_pos hstop]
          exact ⟨rfl, rfl⟩
        · rw [if_neg hstop]
          dsimp only
          have hstep := stepIter_nonpos_qty c simPrice p (envs i) (initState ik) hq rfl
          rw [hstep.1, hstep.2]
          have hr := ihM (i + 1)
          exact ⟨hr.1, by simpa using hr.2⟩
    exact main fuel 0

/-- Witness for C3 amended at the concrete quantity-0 run. -/
theorem C3_witness :
    run_threshold_strategy cwClient cwSim "NSE_EQ|X" c3P (fun _ => c3Env) 1 =
      .ok (runLoop cwClient cwSim c3P (fun _ => c3Env) 0 (initState "NSE_EQ|X") 1) ∧
    (place_market_order cwClient cwOE "NSE_EQ|X" "BUY" 0 "I" "DAY" none).result =
      .error (.valueError "quantity must be positive") ∧
    (runLoop cwClient cwSim c3P (fun _ => c3Env) 0 (initState "NSE_EQ|X") 1).state =
      initState "NSE_EQ|X" :=
  ⟨(C3_amended cwClient cwSim "NSE_EQ|X" c3P (fun _ => c3Env) 1).1 (Or.inl rfl),
   ((C3_amended cwClient cwSim "NSE_EQ|X" c3P (fun _ => c3Env) 1).2.1 cwOE "NSE_EQ|X" 0
     "I" "DAY" none (by decide)).1,
   ((C3_amended cwClient cwSim "NSE_EQ|X" c3P (fun _ => c3Env) 1).2.2 (by decide)).1⟩


end Bot
